import Mathlib

/-!
Verification model of the monitoring database manager pipeline
(parsl/monitoring/db_manager.py): message classification and routing,
batch extraction, forwarder threads and the coordinator loop.

Python dictionaries carrying telemetry are modelled as association lists
from field names to values; a field may be present with the Python value
None, or absent altogether (an access to an absent field raises KeyError,
modelled with Option / Except).
-/

/-- A Python value stored in a telemetry message field: either None or a
string payload (all monitoring columns are Text columns in the source). -/
inductive PyVal where
  | pynone : PyVal
  | pystr : String → PyVal
deriving DecidableEq, Repr

/-- A telemetry message: a dictionary from field names to values,
modelled as an association list (first binding wins). -/
abbrev Msg := List (String × PyVal)

/-- Dictionary lookup: some value when the key is present, none when the
access would raise KeyError. -/
def mfind : Msg → String → Option PyVal
  | [], _ => Option.none
  | (k, v) :: rest, key => if k = key then some v else mfind rest key

/-- Python membership test `key in msg`. -/
def hasKey (m : Msg) (key : String) : Bool :=
  (mfind m key).isSome

/-- Table name constants from the source module. -/
def WORKFLOW : String := "workflow"

def TASK : String := "task"

def STATUS : String := "status"

def RESOURCE : String := "resource"

/-- The MessageType enum from the source. -/
inductive MessageType where
  | TASK_INFO : MessageType
  | RESOURCE_INFO : MessageType
  | WORKFLOW_INFO : MessageType
deriving DecidableEq, Repr

/-- The numeric value attached to each enum member in the source. -/
def MessageType.value : MessageType → Nat
  | .TASK_INFO => 0
  | .RESOURCE_INFO => 1
  | .WORKFLOW_INFO => 2

/-- Column names of each declarative table, in declaration order
(the order of table.c.keys()). -/
def tableColumns : String → List String
  | "workflow" =>
      ["run_id", "workflow_name", "workflow_version", "time_began",
       "time_completed", "host", "user", "rundir", "tasks_failed_count",
       "tasks_completed_count"]
  | "status" =>
      ["task_id", "task_status_name", "timestamp", "run_id"]
  | "task" =>
      ["task_id", "run_id", "task_executor", "task_func_name",
       "task_time_submitted", "task_time_returned", "task_memoize",
       "task_inputs", "task_outputs", "task_stdin", "task_stdout"]
  | "resource" =>
      ["task_id", "timestamp", "run_id", "psutil_process_pid",
       "psutil_process_cpu_percent", "psutil_process_memory_percent",
       "psutil_process_children_count", "psutil_process_time_user",
       "psutil_process_time_system", "psutil_process_memory_virtual",
       "psutil_process_memory_resident", "psutil_process_disk_read",
       "psutil_process_disk_write", "psutil_process_status"]
  | _ => []

/-- One generated mapping row: the projection of a message onto a column
list, as built by Database.generateMappings for a single message. -/
def rowFor (cols : List String) (msg : Msg) : Except String (List (String × PyVal)) :=
  cols.mapM (fun c =>
    match mfind msg c with
    | some v => Except.ok (c, v)
    | Option.none => Except.error c)

/-- Database mapping generation: for each message, read every named
column directly from the message dictionary; a missing key raises
KeyError, aborting the whole call. When no column list is supplied the
full column list of the table is used. -/
def generateMappings (tableCols : List String) (columns : Option (List String))
    (messages : List Msg) : Except String (List (List (String × PyVal))) :=
  messages.mapM (rowFor (columns.getD tableCols))

/-- A persistence call issued by the database manager: a bulk insert of
messages into a table, or a bulk update of the named columns. -/
inductive Call where
  | insert : String → List Msg → Call
  | update : String → List String → List Msg → Call
deriving DecidableEq, Repr

/-- Running a call through mapping generation: none when the call goes
through, some column name when a KeyError is raised before the database
is touched. -/
def checkCall : Call → Option String
  | Call.insert t msgs =>
      match generateMappings (tableColumns t) Option.none msgs with
      | Except.ok _ => Option.none
      | Except.error e => some e
  | Call.update t cols msgs =>
      match generateMappings (tableColumns t) (some cols) msgs with
      | Except.ok _ => Option.none
      | Except.error e => some e

/-- The state built by the per-message classification loop in
DatabaseManager.start (lines 217 to 234): the task update group, the
task insert group, the list of all task-class messages, the workflow
calls issued inside the loop, and the pending exception if one was
raised. -/
structure ClassifyResult where
  updateMessages : List Msg
  insertMessages : List Msg
  allMessages : List Msg
  calls : List Call
  error : Option String
deriving DecidableEq, Repr

/-- Columns of the workflow end-message update. -/
def wfEndColumns : List String :=
  ["run_id", "tasks_failed_count", "tasks_completed_count", "time_completed"]

/-- Columns of the per-cycle workflow counters update. -/
def wfCounterColumns : List String :=
  ["run_id", "tasks_failed_count", "tasks_completed_count"]

/-- Columns of the task update call. -/
def taskUpdateColumns : List String :=
  ["task_time_returned", "run_id", "task_id"]

/-- The classification loop of DatabaseManager.start over the priority
batch. A WORKFLOW_INFO message with a python_version key is inserted
into the workflow table at once; one without it is turned into a
workflow end update at once. Any other message type is appended to
allMessages and then its task_time_returned field is read directly: a
raised KeyError aborts the loop, a value of None sends the message to
the insert group, any other value to the update group. An exception
from an issued workflow call also aborts the loop, keeping the calls
already issued. -/
def classifyLoopAux : List (MessageType × Msg) → List Msg → List Msg → List Msg →
    List Call → ClassifyResult
  | [], u, i, a, acc => ⟨u, i, a, acc, Option.none⟩
  | (mt, msg) :: rest, u, i, a, acc =>
    if mt.value = MessageType.WORKFLOW_INFO.value then
      if hasKey msg "python_version" then
        match checkCall (Call.insert WORKFLOW [msg]) with
        | some e => ⟨u, i, a, acc, some e⟩
        | Option.none => classifyLoopAux rest u i a (acc ++ [Call.insert WORKFLOW [msg]])
      else
        match checkCall (Call.update WORKFLOW wfEndColumns [msg]) with
        | some e => ⟨u, i, a, acc, some e⟩
        | Option.none =>
            classifyLoopAux rest u i a (acc ++ [Call.update WORKFLOW wfEndColumns [msg]])
    else
      match mfind msg "task_time_returned" with
      | Option.none => ⟨u, i, a ++ [msg], acc, some "task_time_returned"⟩
      | some v =>
          if v = PyVal.pynone then
            classifyLoopAux rest u (i ++ [msg]) (a ++ [msg]) acc
          else
            classifyLoopAux rest (u ++ [msg]) i (a ++ [msg]) acc

/-- Classification of one priority batch, starting from empty groups. -/
def classifyLoop (batch : List (MessageType × Msg)) : ClassifyResult :=
  classifyLoopAux batch [] [] [] []

/-- The outcome of one coordinator cycle: the persistence calls issued,
in order, and the exception that aborted the cycle if one was raised. -/
structure CycleResult where
  calls : List Call
  error : Option String
deriving DecidableEq, Repr

/-- Issue a list of calls in order, stopping at the first raised
exception and keeping the calls already issued. -/
def issueSeq : List Call → List Call → CycleResult
  | [], acc => ⟨acc, Option.none⟩
  | c :: cs, acc =>
    match checkCall c with
    | some e => ⟨acc, some e⟩
    | Option.none => issueSeq cs (acc ++ [c])

/-- The calls issued after the classification loop, in source order
(lines 235 to 258): the unconditional workflow counters update fed with
the update group, a task insert when the insert group is non-empty, a
task update when the update group is non-empty, the unconditional
status insert of all task-class messages, and the unconditional
resource insert of the resource batch. -/
def tailCalls (r : ClassifyResult) (resourceBatch : List Msg) : List Call :=
  [Call.update WORKFLOW wfCounterColumns r.updateMessages] ++
  (if r.insertMessages = [] then [] else [Call.insert TASK r.insertMessages]) ++
  (if r.updateMessages = [] then [] else [Call.update TASK taskUpdateColumns r.updateMessages]) ++
  [Call.insert STATUS r.allMessages] ++
  [Call.insert RESOURCE resourceBatch]

/-- One full coordinator cycle over a priority batch and a resource
batch: run the classification loop, then issue the tail calls in order;
any exception aborts everything after it, and the calls already issued
are not undone. -/
def processCycle (priorityBatch : List (MessageType × Msg))
    (resourceBatch : List Msg) : CycleResult :=
  match classifyLoop priorityBatch with
  | ⟨_, _, _, acc, some e⟩ => ⟨acc, some e⟩
  | r => issueSeq (tailCalls r resourceBatch) r.calls

/-- One call of DatabaseManager.getMessagesInBatch (lines 286 to 299),
with wall-clock time made explicit: elapsed i is the value of the
difference between the current time and the recorded start time at the
i-th loop-head check, interval is the time budget (a rational, or the
top element for float inf), threshold the count threshold. At each
iteration the loop first breaks when the elapsed time has reached the
budget or the accumulated count has reached the threshold; otherwise it
tries a non-blocking read, breaking when the buffer is empty and
appending the message when one is available. Returns the accumulated
batch and the remaining buffer content. -/
def getBatchAux {α : Type} (elapsed : Nat → ℚ) (interval : WithTop ℚ) (threshold : Nat) :
    Nat → List α → List α → List α × List α
  | i, acc, q =>
    if interval ≤ ((elapsed i : ℚ) : WithTop ℚ) ∨ threshold ≤ acc.length then
      (acc, q)
    else
      match q with
      | [] => (acc, [])
      | x :: rest => getBatchAux elapsed interval threshold (i + 1) (acc ++ [x]) rest

/-- Batch extraction from a pending buffer, starting with an empty
accumulator at the first clock check. -/
def getMessagesInBatch {α : Type} (elapsed : Nat → ℚ) (interval : WithTop ℚ)
    (threshold : Nat) (q : List α) : List α × List α :=
  getBatchAux elapsed interval threshold 0 [] q

/-- A Python object travelling on an ingress channel: None, a string, or
a tuple of objects. -/
inductive PyObj where
  | objnone : PyObj
  | objstr : String → PyObj
  | tup : List PyObj → PyObj

mutual

/-- Decidable equality on channel objects. -/
def PyObj.decEq : (a b : PyObj) → Decidable (a = b)
  | PyObj.objnone, PyObj.objnone => isTrue rfl
  | PyObj.objnone, PyObj.objstr _ => isFalse (fun h => PyObj.noConfusion h)
  | PyObj.objnone, PyObj.tup _ => isFalse (fun h => PyObj.noConfusion h)
  | PyObj.objstr _, PyObj.objnone => isFalse (fun h => PyObj.noConfusion h)
  | PyObj.objstr s, PyObj.objstr t =>
      if h : s = t then isTrue (by rw [h]) else isFalse (fun hh => h (by injection hh))
  | PyObj.objstr _, PyObj.tup _ => isFalse (fun h => PyObj.noConfusion h)
  | PyObj.tup _, PyObj.objnone => isFalse (fun h => PyObj.noConfusion h)
  | PyObj.tup _, PyObj.objstr _ => isFalse (fun h => PyObj.noConfusion h)
  | PyObj.tup l, PyObj.tup m =>
      match PyObj.decEqList l m with
      | isTrue h => isTrue (by rw [h])
      | isFalse h => isFalse (fun hh => h (by injection hh))

/-- Decidable equality on lists of channel objects. -/
def PyObj.decEqList : (l m : List PyObj) → Decidable (l = m)
  | [], [] => isTrue rfl
  | [], _ :: _ => isFalse (fun h => List.noConfusion h)
  | _ :: _, [] => isFalse (fun h => List.noConfusion h)
  | x :: xs, y :: ys =>
      match PyObj.decEq x y, PyObj.decEqList xs ys with
      | isTrue h1, isTrue h2 => isTrue (by rw [h1, h2])
      | isFalse h1, _ => isFalse (fun hh => h1 (by injection hh))
      | isTrue _, isFalse h2 => isFalse (fun hh => h2 (by injection hh))

end

instance : DecidableEq PyObj := PyObj.decEq

/-- Tuple unpacking into exactly two names, as in the source line
x, addr = logs_queue.get(block=False): succeeds on a two-element tuple
and on a two-character string (each character becoming a one-character
string), and raises on everything else. -/
def unpack2 : PyObj → Option (PyObj × PyObj)
  | PyObj.tup [x, a] => some (x, a)
  | PyObj.objstr s =>
      if s.length = 2 then some (PyObj.objstr (s.take 1), PyObj.objstr (s.drop 1))
      else Option.none
  | _ => Option.none

/-- The Python expression x[-1]: the last element of a tuple, the last
character of a non-empty string; anything else raises. -/
def pyLastElem : PyObj → Option PyObj
  | PyObj.tup l => l.getLast?
  | PyObj.objstr s =>
      if s.length = 0 then Option.none else some (PyObj.objstr (s.takeRight 1))
  | PyObj.objnone => Option.none

/-- The effect of handling one received channel item inside
migrateLogsToInternal. -/
inductive ForwardEffect where
  | enqueuePriority : PyObj → ForwardEffect
  | enqueueResource : PyObj → ForwardEffect
  | stopSignal : ForwardEffect
  | noEffect : ForwardEffect
deriving DecidableEq

/-- Handling of one item received by a forwarder thread in
DatabaseManager.migrateLogsToInternal (lines 267 to 278): the item is
unpacked into x and addr; on the priority tag, x equal to the string
STOP triggers close and anything else is put on the priority pending
buffer; on the resource tag, the expression x[-1] is put on the
resource pending buffer; an unknown tag does nothing. A failed
unpacking or a failing x[-1] raises, killing the thread. -/
def migrateOne (queueTag : String) (item : PyObj) : Except String ForwardEffect :=
  match unpack2 item with
  | Option.none => Except.error "unpack"
  | some (x, _) =>
      if queueTag = "priority" then
        if x = PyObj.objstr "STOP" then Except.ok ForwardEffect.stopSignal
        else Except.ok (ForwardEffect.enqueuePriority x)
      else if queueTag = "resource" then
        match pyLastElem x with
        | some v => Except.ok (ForwardEffect.enqueueResource v)
        | Option.none => Except.error "negative index"
      else Except.ok ForwardEffect.noEffect

/-- The five observations the coordinator loop head makes in
DatabaseManager.start (lines 198 to 200): whether the kill event is
set and the sizes of the two pending buffers and the two ingress
channels. -/
structure CoordQueues where
  killSet : Bool
  pendingPrioritySize : Nat
  pendingResourceSize : Nat
  prioritySize : Nat
  resourceSize : Nat
deriving DecidableEq, Repr

/-- The continuation condition of the coordinator while loop, exactly as
written in the source: not kill-set, or any of the four observed queue
sizes non-zero. -/
def loopCondition (s : CoordQueues) : Bool :=
  !s.killSet || decide (s.pendingPrioritySize ≠ 0) ||
    decide (s.pendingResourceSize ≠ 0) || decide (s.prioritySize ≠ 0) ||
    decide (s.resourceSize ≠ 0)

/-- The thread state of one forwarder: at its loop head, holding an
item already removed from its ingress channel but not yet acted on, or
exited. -/
inductive FwState where
  | atLoop : FwState
  | holding : PyObj → PyObj → FwState
  | exited : FwState
deriving DecidableEq

/-- The shared state of the three threads of DatabaseManager.start: the
two ingress channels (front of list is next to be read), the kill
event, the two pending buffers, the two forwarder thread states, the
coordinator termination flag, and the messages each coordinator cycle
has extracted and handed to classification and routing. -/
structure SysState where
  priorityChan : List PyObj
  resourceChan : List PyObj
  kill : Bool
  pendingP : List PyObj
  pendingR : List PyObj
  pf : FwState
  rf : FwState
  stopped : Bool
  routedP : List PyObj
  routedR : List PyObj
deriving DecidableEq

/-- The coordinator loop condition evaluated on the shared state. -/
def coordContinues (s : SysState) : Bool :=
  loopCondition ⟨s.kill, s.pendingP.length, s.pendingR.length,
                 s.priorityChan.length, s.resourceChan.length⟩

/-- Interleaved small-step semantics of the three threads.

The forwarder steps follow migrateLogsToInternal: a non-blocking read
removes the head item from the channel and unpacks it into the thread
(pfPop, rfPop); a held STOP on the priority tag runs close, setting the
kill event (pfStop); any other held priority payload is put on the
priority pending buffer (pfPut); a held resource payload has its last
element put on the resource pending buffer (rfPut); a forwarder exits
when the kill event is set and its channel is observed empty (pfExit,
rfExit).

The coordinator steps follow the while loop of start: when the loop
condition holds, one cycle extracts a FIFO prefix of each pending
buffer and hands every extracted message to classification and routing
(coordCycle; the prefix lengths are free, which over-approximates the
clock- and threshold-driven batch sizes, and routing is assumed to
consume every extracted message); when the loop condition fails the
loop terminates (coordStop). -/
inductive Step : SysState → SysState → Prop where
  | pfPop (it : PyObj) (rest rc : List PyObj) (x a : PyObj) (k : Bool)
      (pp pr : List PyObj) (rf : FwState) (st : Bool) (rp rr : List PyObj) :
      unpack2 it = some (x, a) →
      Step ⟨it :: rest, rc, k, pp, pr, FwState.atLoop, rf, st, rp, rr⟩
           ⟨rest, rc, k, pp, pr, FwState.holding x a, rf, st, rp, rr⟩
  | pfStop (pc rc : List PyObj) (a : PyObj) (k : Bool)
      (pp pr : List PyObj) (rf : FwState) (st : Bool) (rp rr : List PyObj) :
      Step ⟨pc, rc, k, pp, pr, FwState.holding (PyObj.objstr "STOP") a, rf, st, rp, rr⟩
           ⟨pc, rc, true, pp, pr, FwState.atLoop, rf, st, rp, rr⟩
  | pfPut (pc rc : List PyObj) (x a : PyObj) (k : Bool)
      (pp pr : List PyObj) (rf : FwState) (st : Bool) (rp rr : List PyObj) :
      x ≠ PyObj.objstr "STOP" →
      Step ⟨pc, rc, k, pp, pr, FwState.holding x a, rf, st, rp, rr⟩
           ⟨pc, rc, k, pp ++ [x], pr, FwState.atLoop, rf, st, rp, rr⟩
  | pfExit (rc : List PyObj) (pp pr : List PyObj) (rf : FwState) (st : Bool)
      (rp rr : List PyObj) :
      Step ⟨[], rc, true, pp, pr, FwState.atLoop, rf, st, rp, rr⟩
           ⟨[], rc, true, pp, pr, FwState.exited, rf, st, rp, rr⟩
  | rfPop (it : PyObj) (pc rest : List PyObj) (x a : PyObj) (k : Bool)
      (pp pr : List PyObj) (pf : FwState) (st : Bool) (rp rr : List PyObj) :
      unpack2 it = some (x, a) →
      Step ⟨pc, it :: rest, k, pp, pr, pf, FwState.atLoop, st, rp, rr⟩
           ⟨pc, rest, k, pp, pr, pf, FwState.holding x a, st, rp, rr⟩
  | rfPut (pc rc : List PyObj) (x a v : PyObj) (k : Bool)
      (pp pr : List PyObj) (pf : FwState) (st : Bool) (rp rr : List PyObj) :
      pyLastElem x = some v →
      Step ⟨pc, rc, k, pp, pr, pf, FwState.holding x a, st, rp, rr⟩
           ⟨pc, rc, k, pp, pr ++ [v], pf, FwState.atLoop, st, rp, rr⟩
  | rfExit (pc : List PyObj) (pp pr : List PyObj) (pf : FwState) (st : Bool)
      (rp rr : List PyObj) :
      Step ⟨pc, [], true, pp, pr, pf, FwState.atLoop, st, rp, rr⟩
           ⟨pc, [], true, pp, pr, pf, FwState.exited, st, rp, rr⟩
  | coordCycle (s : SysState) (nP nR : Nat) :
      s.stopped = false →
      coordContinues s = true →
      Step s ⟨s.priorityChan, s.resourceChan, s.kill,
              s.pendingP.drop nP, s.pendingR.drop nR, s.pf, s.rf, false,
              s.routedP ++ s.pendingP.take nP, s.routedR ++ s.pendingR.take nR⟩
  | coordStop (s : SysState) :
      s.stopped = false →
      coordContinues s = false →
      Step s ⟨s.priorityChan, s.resourceChan, s.kill,
              s.pendingP, s.pendingR, s.pf, s.rf, true, s.routedP, s.routedR⟩

/-- Zero or more interleaved steps. -/
def Steps : SysState → SysState → Prop :=
  Relation.ReflTransGen Step

/-- The table a persistence call is addressed to. -/
def callTable : Call → String
  | Call.insert t _ => t
  | Call.update t _ _ => t

/-- A complete workflow start message: every workflow column plus the
python_version key that marks a start message. -/
def wfStartMsg : Msg :=
  [("run_id", PyVal.pystr "r1"),
   ("workflow_name", PyVal.pystr "wf"),
   ("workflow_version", PyVal.pystr "1"),
   ("time_began", PyVal.pystr "t0"),
   ("time_completed", PyVal.pynone),
   ("host", PyVal.pystr "h"),
   ("user", PyVal.pystr "u"),
   ("rundir", PyVal.pystr "d"),
   ("tasks_failed_count", PyVal.pystr "0"),
   ("tasks_completed_count", PyVal.pystr "0"),
   ("python_version", PyVal.pystr "3.8")]

/-- A complete task message whose task_time_returned is None. -/
def taskMsgNone : Msg :=
  [("task_id", PyVal.pystr "t1"),
   ("run_id", PyVal.pystr "r1"),
   ("task_executor", PyVal.pystr "ex"),
   ("task_func_name", PyVal.pystr "f"),
   ("task_time_submitted", PyVal.pystr "t1s"),
   ("task_time_returned", PyVal.pynone),
   ("task_memoize", PyVal.pystr "False"),
   ("task_inputs", PyVal.pynone),
   ("task_outputs", PyVal.pynone),
   ("task_stdin", PyVal.pynone),
   ("task_stdout", PyVal.pynone),
   ("task_status_name", PyVal.pystr "launched"),
   ("timestamp", PyVal.pystr "ts1"),
   ("tasks_failed_count", PyVal.pystr "0"),
   ("tasks_completed_count", PyVal.pystr "0")]

/-- A complete task message whose task_time_returned is present. -/
def taskMsgRet : Msg :=
  [("task_id", PyVal.pystr "t1"),
   ("run_id", PyVal.pystr "r1"),
   ("task_executor", PyVal.pystr "ex"),
   ("task_func_name", PyVal.pystr "f"),
   ("task_time_submitted", PyVal.pystr "t1s"),
   ("task_time_returned", PyVal.pystr "t1r"),
   ("task_memoize", PyVal.pystr "False"),
   ("task_inputs", PyVal.pynone),
   ("task_outputs", PyVal.pynone),
   ("task_stdin", PyVal.pynone),
   ("task_stdout", PyVal.pynone),
   ("task_status_name", PyVal.pystr "done"),
   ("timestamp", PyVal.pystr "ts2"),
   ("tasks_failed_count", PyVal.pystr "0"),
   ("tasks_completed_count", PyVal.pystr "1")]

/-- A complete resource sample message: every resource column. -/
def resourceMsg : Msg :=
  [("task_id", PyVal.pystr "t1"),
   ("timestamp", PyVal.pystr "ts3"),
   ("run_id", PyVal.pystr "r1"),
   ("psutil_process_pid", PyVal.pystr "12"),
   ("psutil_process_cpu_percent", PyVal.pystr "1.0"),
   ("psutil_process_memory_percent", PyVal.pystr "2.0"),
   ("psutil_process_children_count", PyVal.pystr "0"),
   ("psutil_process_time_user", PyVal.pystr "0.1"),
   ("psutil_process_time_system", PyVal.pystr "0.2"),
   ("psutil_process_memory_virtual", PyVal.pystr "100"),
   ("psutil_process_memory_resident", PyVal.pystr "50"),
   ("psutil_process_disk_read", PyVal.pystr "3"),
   ("psutil_process_disk_write", PyVal.pystr "4"),
   ("psutil_process_status", PyVal.pystr "running")]

/-- A tagged resource record as it travels on the resource channel: the
message component of the channel item. -/
def resSample : PyObj :=
  PyObj.tup [PyObj.objstr "RESOURCE_INFO", PyObj.objstr "sample"]

/-- A resource channel item: the tagged record paired with the address
of its source. -/
def resChanItem : PyObj := PyObj.tup [resSample, PyObj.objstr "raddr"]

/-- A priority channel item carrying the STOP sentinel. -/
def stopChanItem : PyObj := PyObj.tup [PyObj.objstr "STOP", PyObj.objstr "paddr"]

/-- Initial state of the losing interleaving: one resource sample on the
resource channel, the STOP sentinel on the priority channel, everything
else idle and empty. -/
def raceInit : SysState :=
  ⟨[stopChanItem], [resChanItem], false, [], [], FwState.atLoop, FwState.atLoop,
   false, [], []⟩

/-- Final state of the losing interleaving: the coordinator loop has
terminated, nothing was ever routed, and the resource forwarder still
holds the sample it removed from its channel. -/
def raceFinal : SysState :=
  ⟨[], [], true, [], [], FwState.atLoop,
   FwState.holding resSample (PyObj.objstr "raddr"), true, [], []⟩

/-- Claim C7: the coordinator loop of DatabaseManager.start continues
iff the shutdown flag is not set or any of the four queues (priority
ingress, resource ingress, priority pending, resource pending) is
non-empty; equivalently it exits only when the flag is set and all four
queues are empty. -/
theorem C7_stop_condition (s : CoordQueues) :
    (loopCondition s = true ↔
      (s.killSet = false ∨ s.pendingPrioritySize ≠ 0 ∨ s.pendingResourceSize ≠ 0 ∨
       s.prioritySize ≠ 0 ∨ s.resourceSize ≠ 0)) ∧
    (loopCondition s = false ↔
      (s.killSet = true ∧ s.pendingPrioritySize = 0 ∧ s.pendingResourceSize = 0 ∧
       s.prioritySize = 0 ∧ s.resourceSize = 0)) := by
  obtain ⟨k, a, b, c, d⟩ := s
  cases k <;> simp [loopCondition]
  tauto

/-- Helper: the batch never grows beyond the count threshold, because
the threshold is checked before every read. -/
theorem getBatchAux_length_le {α : Type} (e : Nat → ℚ) (int : WithTop ℚ) (K : Nat) :
    ∀ (q : List α) (i : Nat) (acc : List α), acc.length ≤ K →
      (getBatchAux e int K i acc q).1.length ≤ K := by
  intro q
  induction q with
  | nil =>
      intro i acc h
      rw [getBatchAux]
      split
      · exact h
      · exact h
  | cons x rest ih =>
      intro i acc h
      rw [getBatchAux]
      split
      · exact h
      · rename_i hc
        push_neg at hc
        exact ih (i + 1) (acc ++ [x]) (by simpa using hc.2)

/-- Helper: while the time budget has not elapsed, the batch loop pops
exactly until the threshold is reached or the buffer empties, so it
extracts a FIFO prefix and leaves the corresponding suffix. -/
theorem getBatchAux_no_time {α : Type} (e : Nat → ℚ) (int : WithTop ℚ) (K : Nat)
    (ht : ∀ i, ¬ int ≤ ((e i : ℚ) : WithTop ℚ)) :
    ∀ (q : List α) (i : Nat) (acc : List α), acc.length ≤ K →
      getBatchAux e int K i acc q =
        (acc ++ q.take (K - acc.length), q.drop (K - acc.length)) := by
  intro q
  induction q with
  | nil =>
      intro i acc h
      rw [getBatchAux]
      split
      · simp
      · simp
  | cons x rest ih =>
      intro i acc h
      rw [getBatchAux]
      split
      · rename_i hc
        rcases hc with hc | hc
        · exact absurd hc (ht i)
        · have h0 : K - acc.length = 0 := by omega
          simp [h0]
      · rename_i hc
        push_neg at hc
        rw [ih (i + 1) (acc ++ [x]) (by simpa using hc.2)]
        have hK : K - acc.length = (K - (acc.length + 1)) + 1 := by omega
        simp [hK, List.append_assoc]

/-- Claim C2: a batch extraction call with count threshold K returns at
most K messages; with 150 messages buffered, threshold 100 and the time
budget not yet elapsed at any check, the first call returns exactly the
first 100 messages and a subsequent call returns the remaining 50. -/
theorem C2_batch_bounding {α : Type} (e : Nat → ℚ) (int : WithTop ℚ) (q : List α)
    (ht : ∀ i, ¬ int ≤ ((e i : ℚ) : WithTop ℚ)) (hlen : q.length = 150) :
    (∀ (K : Nat) (e2 : Nat → ℚ) (int2 : WithTop ℚ) (q2 : List α),
        (getMessagesInBatch e2 int2 K q2).1.length ≤ K) ∧
    getMessagesInBatch e int 100 q = (q.take 100, q.drop 100) ∧
    (q.take 100).length = 100 ∧
    getMessagesInBatch e int 100 (q.drop 100) = (q.drop 100, []) ∧
    (q.drop 100).length = 50 := by
  refine ⟨?_, ?_, ?_, ?_, ?_⟩
  · intro K e2 int2 q2
    exact getBatchAux_length_le e2 int2 K q2 0 [] (Nat.zero_le K)
  · have h := getBatchAux_no_time e int 100 ht q 0 [] (Nat.zero_le 100)
    simpa [getMessagesInBatch] using h
  · simp [hlen]
  · have h := getBatchAux_no_time e int 100 ht (q.drop 100) 0 [] (Nat.zero_le 100)
    have hd : (q.drop 100).length = 50 := by simp [hlen]
    simp only [List.nil_append, List.length_nil, Nat.sub_zero] at h
    simp only [getMessagesInBatch]
    have h1 : List.take 100 (List.drop 100 q) = List.drop 100 q :=
      List.take_of_length_le (by omega)
    have h2 : List.drop 100 (List.drop 100 q) = [] :=
      List.drop_eq_nil_of_le (by omega)
    rw [h, h1, h2]
  · simp [hlen]

/-- Claim C2 witness: the scenario at a concrete input. -/
theorem C2_batch_bounding_witness :
    (List.range 150).length = 150 ∧
    getMessagesInBatch (fun _ => (0 : ℚ)) (⊤ : WithTop ℚ) 100 (List.range 150) =
      ((List.range 150).take 100, (List.range 150).drop 100) :=
  ⟨by simp,
   (C2_batch_bounding (fun _ => (0 : ℚ)) ⊤ (List.range 150)
      (by intro i; simp) (by simp)).2.1⟩

/-- Claim C3 counterexample: with the default effectively-infinite
threshold 99999 and a zero time budget, the very first clock check
already satisfies elapsed at least interval, so the call returns no
messages and leaves the whole pending buffer behind, instead of
draining everything currently available. -/
theorem C3_zero_budget_counterexample :
    getMessagesInBatch (fun _ => (0 : ℚ)) (((0 : ℚ) : WithTop ℚ)) 99999
        ([10, 20, 30] : List ℕ) = ([], [10, 20, 30]) ∧
    getMessagesInBatch (fun _ => (0 : ℚ)) (((0 : ℚ) : WithTop ℚ)) 99999
        ([10, 20, 30] : List ℕ) ≠ ([10, 20, 30], []) := by
  constructor
  · rfl
  · decide

/-- Claim C3 amended: with a zero time budget the call returns
immediately with no messages whatever the threshold, because the
elapsed time is never negative; the degenerate drain-everything case is
instead an infinite time budget (what close actually sets) combined
with a threshold at least the buffer size. -/
theorem C3_degenerate_batch_amended {α : Type} (e : Nat → ℚ) (q : List α) (K : Nat)
    (h0 : 0 ≤ e 0) (hK : q.length ≤ K) :
    getMessagesInBatch e (((0 : ℚ) : WithTop ℚ)) K q = ([], q) ∧
    getMessagesInBatch e (⊤ : WithTop ℚ) K q = (q, []) := by
  constructor
  · show getBatchAux e (((0 : ℚ) : WithTop ℚ)) K 0 [] q = ([], q)
    have hcond : ((0 : ℚ) : WithTop ℚ) ≤ ((e 0 : ℚ) : WithTop ℚ) :=
      WithTop.coe_le_coe.mpr h0
    cases q with
    | nil =>
        rw [getBatchAux]
        rw [if_pos (Or.inl hcond)]
    | cons x rest =>
        rw [getBatchAux]
        rw [if_pos (Or.inl hcond)]
  · have e1 : ∀ i, ¬ (⊤ : WithTop ℚ) ≤ ((e i : ℚ) : WithTop ℚ) := by
      intro i
      simp
    have h := getBatchAux_no_time e ⊤ K e1 q 0 [] (Nat.zero_le K)
    simp only [List.nil_append, List.length_nil, Nat.sub_zero] at h
    simp only [getMessagesInBatch]
    rw [h, List.take_of_length_le hK, List.drop_eq_nil_of_le hK]

/-- Claim C3 amended witness: the two degenerate cases at a concrete
input. -/
theorem C3_degenerate_batch_amended_witness :
    (0 : ℚ) ≤ 0 ∧ ([5, 6] : List ℕ).length ≤ 99999 ∧
    getMessagesInBatch (fun _ => (0 : ℚ)) (((0 : ℚ) : WithTop ℚ)) 99999
        ([5, 6] : List ℕ) = ([], [5, 6]) ∧
    getMessagesInBatch (fun _ => (0 : ℚ)) (⊤ : WithTop ℚ) 99999
        ([5, 6] : List ℕ) = ([5, 6], []) := by
  refine ⟨le_refl 0, by decide, ?_, ?_⟩
  · exact (C3_degenerate_batch_amended (fun _ => (0 : ℚ)) [5, 6] 99999
      (le_refl 0) (by decide)).1
  · exact (C3_degenerate_batch_amended (fun _ => (0 : ℚ)) [5, 6] 99999
      (le_refl 0) (by decide)).2

/-- Helper: a message in the insert group was already there or has a
task_time_returned field whose value is None. -/
theorem classify_insert_mem :
    ∀ (batch : List (MessageType × Msg)) (u i a : List Msg) (acc : List Call) (m : Msg),
      m ∈ (classifyLoopAux batch u i a acc).insertMessages →
      m ∈ i ∨ mfind m "task_time_returned" = some PyVal.pynone := by
  intro batch
  induction batch with
  | nil =>
      intro u i a acc m hm
      exact Or.inl hm
  | cons hd rest ih =>
      obtain ⟨mt, msg⟩ := hd
      intro u i a acc m hm
      rw [classifyLoopAux] at hm
      split at hm
      · split at hm
        · split at hm
          · exact Or.inl hm
          · exact ih u i a _ m hm
        · split at hm
          · exact Or.inl hm
          · exact ih u i a _ m hm
      · split at hm
        · exact Or.inl hm
        · rename_i v hv
          split at hm
          · rename_i hveq
            rcases ih u (i ++ [msg]) (a ++ [msg]) acc m hm with h | h
            · rcases List.mem_append.mp h with h2 | h2
              · exact Or.inl h2
              · right
                rw [List.mem_singleton.mp h2, hv, hveq]
            · exact Or.inr h
          · exact ih (u ++ [msg]) i (a ++ [msg]) acc m hm

/-- Helper: a message in the update group was already there or has a
task_time_returned field whose value is not None. -/
theorem classify_update_mem :
    ∀ (batch : List (MessageType × Msg)) (u i a : List Msg) (acc : List Call) (m : Msg),
      m ∈ (classifyLoopAux batch u i a acc).updateMessages →
      m ∈ u ∨ ∃ v, mfind m "task_time_returned" = some v ∧ v ≠ PyVal.pynone := by
  intro batch
  induction batch with
  | nil =>
      intro u i a acc m hm
      exact Or.inl hm
  | cons hd rest ih =>
      obtain ⟨mt, msg⟩ := hd
      intro u i a acc m hm
      rw [classifyLoopAux] at hm
      split at hm
      · split at hm
        · split at hm
          · exact Or.inl hm
          · exact ih u i a _ m hm
        · split at hm
          · exact Or.inl hm
          · exact ih u i a _ m hm
      · split at hm
        · exact Or.inl hm
        · rename_i v hv
          split at hm
          · exact ih u (i ++ [msg]) (a ++ [msg]) acc m hm
          · rename_i hvne
            rcases ih (u ++ [msg]) i (a ++ [msg]) acc m hm with h | h
            · rcases List.mem_append.mp h with h2 | h2
              · exact Or.inl h2
              · right
                exact ⟨v, by rw [List.mem_singleton.mp h2]; exact hv, hvne⟩
            · exact Or.inr h

/-- Claim C4: in one batch cycle, every message in the task insert group
has task_time_returned equal to None, every message in the task update
group has task_time_returned present and not None, and no message is in
both groups. -/
theorem C4_insert_update_exclusivity (batch : List (MessageType × Msg)) (m : Msg) :
    (m ∈ (classifyLoop batch).insertMessages →
      mfind m "task_time_returned" = some PyVal.pynone) ∧
    (m ∈ (classifyLoop batch).updateMessages →
      ∃ v, mfind m "task_time_returned" = some v ∧ v ≠ PyVal.pynone) ∧
    ¬(m ∈ (classifyLoop batch).insertMessages ∧
      m ∈ (classifyLoop batch).updateMessages) := by
  have hi : m ∈ (classifyLoop batch).insertMessages →
      mfind m "task_time_returned" = some PyVal.pynone := by
    intro hm
    rcases classify_insert_mem batch [] [] [] [] m hm with h | h
    · exact absurd h (List.not_mem_nil m)
    · exact h
  have hu : m ∈ (classifyLoop batch).updateMessages →
      ∃ v, mfind m "task_time_returned" = some v ∧ v ≠ PyVal.pynone := by
    intro hm
    rcases classify_update_mem batch [] [] [] [] m hm with h | h
    · exact absurd h (List.not_mem_nil m)
    · exact h
  refine ⟨hi, hu, ?_⟩
  rintro ⟨h1, h2⟩
  obtain ⟨v, hv, hvne⟩ := hu h2
  rw [hi h1] at hv
  exact hvne (Option.some_injective _ hv).symm

/-- Claim C4 witness: exclusivity at a concrete two-message batch. -/
theorem C4_insert_update_exclusivity_witness :
    taskMsgNone ∈
      (classifyLoop [(MessageType.TASK_INFO, taskMsgNone),
                     (MessageType.TASK_INFO, taskMsgRet)]).insertMessages ∧
    taskMsgNone ∉
      (classifyLoop [(MessageType.TASK_INFO, taskMsgNone),
                     (MessageType.TASK_INFO, taskMsgRet)]).updateMessages :=
  ⟨by decide,
   fun h =>
     (C4_insert_update_exclusivity
       [(MessageType.TASK_INFO, taskMsgNone), (MessageType.TASK_INFO, taskMsgRet)]
       taskMsgNone).2.2 ⟨by decide, h⟩⟩

/-- Helper: when the classification loop raised, the cycle stops there,
keeping exactly the calls the loop had issued. -/
theorem processCycle_error_eq (pb : List (MessageType × Msg)) (rb : List Msg)
    (e : String) (h : (classifyLoop pb).error = some e) :
    processCycle pb rb = ⟨(classifyLoop pb).calls, some e⟩ := by
  unfold processCycle
  rcases hr : classifyLoop pb with ⟨u, i, a, acc, err⟩
  rw [hr] at h
  simp only at h
  subst h
  simp

/-- Helper: when the classification loop raised no exception, the cycle
issues the tail calls after the calls of the loop. -/
theorem processCycle_ok_eq (pb : List (MessageType × Msg)) (rb : List Msg)
    (h : (classifyLoop pb).error = Option.none) :
    processCycle pb rb =
      issueSeq (tailCalls (classifyLoop pb) rb) (classifyLoop pb).calls := by
  unfold processCycle
  rcases hr : classifyLoop pb with ⟨u, i, a, acc, err⟩
  rw [hr] at h
  simp only at h
  subst h
  simp [tailCalls]

/-- Helper: issuing a call sequence only ever appends to the calls
already issued. -/
theorem issueSeq_calls_extend :
    ∀ (cs acc : List Call), ∃ rest, (issueSeq cs acc).calls = acc ++ rest := by
  intro cs
  induction cs with
  | nil =>
      intro acc
      exact ⟨[], by simp [issueSeq]⟩
  | cons c cs2 ih =>
      intro acc
      rw [issueSeq]
      split
      · exact ⟨[], by simp⟩
      · obtain ⟨rest, hrest⟩ := ih (acc ++ [c])
        exact ⟨c :: rest, by simp [hrest]⟩

/-- Helper: a call sequence that raised no exception was issued whole
and in order. -/
theorem issueSeq_ok_calls :
    ∀ (cs acc : List Call), (issueSeq cs acc).error = Option.none →
      (issueSeq cs acc).calls = acc ++ cs := by
  intro cs
  induction cs with
  | nil =>
      intro acc _
      simp [issueSeq]
  | cons c cs2 ih =>
      intro acc h
      rw [issueSeq] at h ⊢
      split at h
      · simp at h
      · rename_i hc
        rw [ih (acc ++ [c]) h]
        simp

/-- Helper: a call whose mapping generation succeeds is issued and the
sequence continues. -/
theorem issueSeq_cons_ok (c : Call) (cs acc : List Call)
    (hc : checkCall c = Option.none) :
    issueSeq (c :: cs) acc = issueSeq cs (acc ++ [c]) := by
  rw [issueSeq]
  rw [hc]

/-- Helper: a call whose mapping generation succeeds appears in the
issued call list right after the calls already issued. -/
theorem issueSeq_calls_cons (c : Call) (cs acc : List Call)
    (hc : checkCall c = Option.none) :
    ∃ rest, (issueSeq (c :: cs) acc).calls = acc ++ c :: rest := by
  rw [issueSeq_cons_ok c cs acc hc]
  obtain ⟨rest, hrest⟩ := issueSeq_calls_extend cs (acc ++ [c])
  refine ⟨rest, ?_⟩
  rw [hrest]
  simp

/-- Claim C5 counterexample: a cycle with a single task message whose
task_time_returned is None issues the workflow counters update with an
empty message list, not with every task-message of the cycle. -/
theorem C5_counters_update_counterexample :
    Call.update WORKFLOW wfCounterColumns [] ∈
      (processCycle [(MessageType.TASK_INFO, taskMsgNone)] []).calls ∧
    Call.update WORKFLOW wfCounterColumns [taskMsgNone] ∉
      (processCycle [(MessageType.TASK_INFO, taskMsgNone)] []).calls := by
  constructor
  · decide
  · decide

/-- Claim C5 amended: in every cycle whose classification loop raises no
exception, an update call against the workflow table with columns
run_id, tasks_failed_count and tasks_completed_count is issued
unconditionally, immediately after the per-message workflow calls and
even when its message list is empty; the messages supplied to it are
exactly the update group, the task messages whose task_time_returned is
present, not every task message of the cycle. -/
theorem C5_counters_update_amended (pb : List (MessageType × Msg)) (rb : List Msg)
    (h : (classifyLoop pb).error = Option.none)
    (hok : checkCall (Call.update WORKFLOW wfCounterColumns
      (classifyLoop pb).updateMessages) = Option.none) :
    ∃ rest, (processCycle pb rb).calls =
      (classifyLoop pb).calls ++
        Call.update WORKFLOW wfCounterColumns (classifyLoop pb).updateMessages :: rest := by
  rw [processCycle_ok_eq pb rb h]
  rw [tailCalls]
  simp only [List.cons_append, List.nil_append]
  exact issueSeq_calls_cons _ _ _ hok

/-- Claim C5 amended witness: the counters update issued with an empty
list at a concrete cycle. -/
theorem C5_counters_update_amended_witness :
    (classifyLoop [(MessageType.TASK_INFO, taskMsgNone)]).error = Option.none ∧
    ∃ rest, (processCycle [(MessageType.TASK_INFO, taskMsgNone)] []).calls =
      (classifyLoop [(MessageType.TASK_INFO, taskMsgNone)]).calls ++
        Call.update WORKFLOW wfCounterColumns
          (classifyLoop [(MessageType.TASK_INFO, taskMsgNone)]).updateMessages :: rest :=
  ⟨by decide,
   C5_counters_update_amended [(MessageType.TASK_INFO, taskMsgNone)] []
     (by decide) (by decide)⟩

/-- Claim C6: in a cycle that raises no exception the persistence calls
are issued in the fixed order: the per-message workflow calls of the
loop, then the workflow counters update, then the task insert (when the
insert group is non-empty), then the task update (when the update group
is non-empty), then the status insert, then the resource insert from
the resource batch. -/
theorem C6_ordering_contract (pb : List (MessageType × Msg)) (rb : List Msg)
    (h : (processCycle pb rb).error = Option.none) :
    (processCycle pb rb).calls =
      (classifyLoop pb).calls ++
      [Call.update WORKFLOW wfCounterColumns (classifyLoop pb).updateMessages] ++
      (if (classifyLoop pb).insertMessages = [] then []
       else [Call.insert TASK (classifyLoop pb).insertMessages]) ++
      (if (classifyLoop pb).updateMessages = [] then []
       else [Call.update TASK taskUpdateColumns (classifyLoop pb).updateMessages]) ++
      [Call.insert STATUS (classifyLoop pb).allMessages] ++
      [Call.insert RESOURCE rb] := by
  have herr : (classifyLoop pb).error = Option.none := by
    by_contra hne
    rcases Option.ne_none_iff_exists.mp hne with ⟨e, he⟩
    rw [processCycle_error_eq pb rb e he.symm] at h
    simp at h
  rw [processCycle_ok_eq pb rb herr] at h ⊢
  rw [issueSeq_ok_calls _ _ h]
  rw [tailCalls]
  simp [List.append_assoc]

/-- Claim C6 witness: the fixed call order at a concrete cycle with one
workflow start message, one task insert-group message, one task
update-group message and one resource sample. -/
theorem C6_ordering_contract_witness :
    (processCycle
       [(MessageType.TASK_INFO, taskMsgNone), (MessageType.TASK_INFO, taskMsgRet),
        (MessageType.WORKFLOW_INFO, wfStartMsg)] [resourceMsg]).error = Option.none ∧
    (processCycle
       [(MessageType.TASK_INFO, taskMsgNone), (MessageType.TASK_INFO, taskMsgRet),
        (MessageType.WORKFLOW_INFO, wfStartMsg)] [resourceMsg]).calls =
      (classifyLoop
        [(MessageType.TASK_INFO, taskMsgNone), (MessageType.TASK_INFO, taskMsgRet),
         (MessageType.WORKFLOW_INFO, wfStartMsg)]).calls ++
      [Call.update WORKFLOW wfCounterColumns
        (classifyLoop
          [(MessageType.TASK_INFO, taskMsgNone), (MessageType.TASK_INFO, taskMsgRet),
           (MessageType.WORKFLOW_INFO, wfStartMsg)]).updateMessages] ++
      (if (classifyLoop
            [(MessageType.TASK_INFO, taskMsgNone), (MessageType.TASK_INFO, taskMsgRet),
             (MessageType.WORKFLOW_INFO, wfStartMsg)]).insertMessages = [] then []
       else [Call.insert TASK
         (classifyLoop
           [(MessageType.TASK_INFO, taskMsgNone), (MessageType.TASK_INFO, taskMsgRet),
            (MessageType.WORKFLOW_INFO, wfStartMsg)]).insertMessages]) ++
      (if (classifyLoop
            [(MessageType.TASK_INFO, taskMsgNone), (MessageType.TASK_INFO, taskMsgRet),
             (MessageType.WORKFLOW_INFO, wfStartMsg)]).updateMessages = [] then []
       else [Call.update TASK taskUpdateColumns
         (classifyLoop
           [(MessageType.TASK_INFO, taskMsgNone), (MessageType.TASK_INFO, taskMsgRet),
            (MessageType.WORKFLOW_INFO, wfStartMsg)]).updateMessages]) ++
      [Call.insert STATUS
        (classifyLoop
          [(MessageType.TASK_INFO, taskMsgNone), (MessageType.TASK_INFO, taskMsgRet),
           (MessageType.WORKFLOW_INFO, wfStartMsg)]).allMessages] ++
      [Call.insert RESOURCE [resourceMsg]] :=
  ⟨by decide,
   C6_ordering_contract
     [(MessageType.TASK_INFO, taskMsgNone), (MessageType.TASK_INFO, taskMsgRet),
      (MessageType.WORKFLOW_INFO, wfStartMsg)] [resourceMsg] (by decide)⟩

/-- Helper: a classification prefix that raised no exception continues
seamlessly on the remaining messages. -/
theorem classify_append :
    ∀ (l1 l2 : List (MessageType × Msg)) (u i a : List Msg) (acc : List Call),
      (classifyLoopAux l1 u i a acc).error = Option.none →
      classifyLoopAux (l1 ++ l2) u i a acc =
        classifyLoopAux l2 (classifyLoopAux l1 u i a acc).updateMessages
          (classifyLoopAux l1 u i a acc).insertMessages
          (classifyLoopAux l1 u i a acc).allMessages
          (classifyLoopAux l1 u i a acc).calls := by
  intro l1
  induction l1 with
  | nil =>
      intro l2 u i a acc _
      rfl
  | cons hd rest ih =>
      obtain ⟨mt, msg⟩ := hd
      intro l2 u i a acc herr
      rw [List.cons_append]
      rw [classifyLoopAux] at herr
      simp only [classifyLoopAux]
      by_cases hmt : mt.value = MessageType.WORKFLOW_INFO.value
      · simp only [if_pos hmt] at herr ⊢
        by_cases hpy : hasKey msg "python_version" = true
        · simp only [if_pos hpy] at herr ⊢
          rcases hcc : checkCall (Call.insert WORKFLOW [msg]) with _ | e
          · simp only [hcc] at herr ⊢
            exact ih l2 u i a (acc ++ [Call.insert WORKFLOW [msg]]) herr
          · simp only [hcc] at herr
            simp at herr
        · simp only [if_neg hpy] at herr ⊢
          rcases hcc : checkCall (Call.update WORKFLOW wfEndColumns [msg]) with _ | e
          · simp only [hcc] at herr ⊢
            exact ih l2 u i a (acc ++ [Call.update WORKFLOW wfEndColumns [msg]]) herr
          · simp only [hcc] at herr
            simp at herr
      · simp only [if_neg hmt] at herr ⊢
        rcases hv : mfind msg "task_time_returned" with _ | v
        · simp only [hv] at herr
          simp at herr
        · simp only [hv] at herr ⊢
          by_cases hvn : v = PyVal.pynone
          · simp only [if_pos hvn] at herr ⊢
            exact ih l2 u (i ++ [msg]) (a ++ [msg]) acc herr
          · simp only [if_neg hvn] at herr ⊢
            exact ih l2 (u ++ [msg]) i (a ++ [msg]) acc herr

/-- Helper: every call issued inside the classification loop addresses
the workflow table. -/
theorem classify_calls_workflow :
    ∀ (batch : List (MessageType × Msg)) (u i a : List Msg) (acc : List Call),
      (∀ c ∈ acc, callTable c = WORKFLOW) →
      ∀ c ∈ (classifyLoopAux batch u i a acc).calls, callTable c = WORKFLOW := by
  intro batch
  induction batch with
  | nil =>
      intro u i a acc hacc c hc
      exact hacc c hc
  | cons hd rest ih =>
      obtain ⟨mt, msg⟩ := hd
      intro u i a acc hacc c hc
      rw [classifyLoopAux] at hc
      split at hc
      · split at hc
        · split at hc
          · exact hacc c hc
          · refine ih u i a _ ?_ c hc
            intro c2 hc2
            rcases List.mem_append.mp hc2 with h2 | h2
            · exact hacc c2 h2
            · rw [List.mem_singleton.mp h2]
              rfl
        · split at hc
          · exact hacc c hc
          · refine ih u i a _ ?_ c hc
            intro c2 hc2
            rcases List.mem_append.mp hc2 with h2 | h2
            · exact hacc c2 h2
            · rw [List.mem_singleton.mp h2]
              rfl
      · split at hc
        · exact hacc c hc
        · split at hc
          · exact ih u (i ++ [msg]) (a ++ [msg]) acc hacc c hc
          · exact ih (u ++ [msg]) i (a ++ [msg]) acc hacc c hc

/-- Claim C9: when any single message in the priority batch is a
task-class message lacking the task_time_returned field, the direct
field lookup raises and the whole batch fails: the cycle ends with an
exception, no call after the failure point is issued (in particular no
task, status or resource call), the bad message is not skipped, and the
per-message workflow calls already issued earlier in the cycle are
kept, not undone. -/
theorem C9_whole_batch_failure (pre post : List (MessageType × Msg))
    (mt : MessageType) (m : Msg) (rb : List Msg)
    (hmt : ¬ mt.value = MessageType.WORKFLOW_INFO.value)
    (hmiss : mfind m "task_time_returned" = Option.none)
    (hpre : (classifyLoop pre).error = Option.none) :
    (processCycle (pre ++ (mt, m) :: post) rb).error =
      some "task_time_returned" ∧
    (processCycle (pre ++ (mt, m) :: post) rb).calls = (classifyLoop pre).calls ∧
    ∀ c ∈ (processCycle (pre ++ (mt, m) :: post) rb).calls,
      callTable c = WORKFLOW := by
  have hfull : classifyLoop (pre ++ (mt, m) :: post) =
      ⟨(classifyLoop pre).updateMessages, (classifyLoop pre).insertMessages,
       (classifyLoop pre).allMessages ++ [m], (classifyLoop pre).calls,
       some "task_time_returned"⟩ := by
    show classifyLoopAux (pre ++ (mt, m) :: post) [] [] [] [] = _
    rw [classify_append pre ((mt, m) :: post) [] [] [] [] hpre]
    rw [classifyLoopAux]
    rw [if_neg hmt]
    rw [hmiss]
    rfl
  have herr : (classifyLoop (pre ++ (mt, m) :: post)).error =
      some "task_time_returned" := by
    rw [hfull]
  have hproc : processCycle (pre ++ (mt, m) :: post) rb =
      ⟨(classifyLoop (pre ++ (mt, m) :: post)).calls, some "task_time_returned"⟩ :=
    processCycle_error_eq _ rb _ herr
  have hcalls : (classifyLoop (pre ++ (mt, m) :: post)).calls =
      (classifyLoop pre).calls := by
    rw [hfull]
  refine ⟨?_, ?_, ?_⟩
  · rw [hproc]
  · rw [hproc]
    exact hcalls
  · intro c hc
    rw [hproc] at hc
    simp only at hc
    rw [hcalls] at hc
    exact classify_calls_workflow pre [] [] [] []
      (fun c2 hc2 => absurd hc2 (List.not_mem_nil c2)) c hc

/-- Claim C9 witness: a concrete batch whose first message is a valid
workflow start and whose second message is a task message missing the
task_time_returned field; the workflow insert is kept and nothing else
is issued. -/
theorem C9_whole_batch_failure_witness :
    ¬ MessageType.TASK_INFO.value = MessageType.WORKFLOW_INFO.value ∧
    mfind [("task_id", PyVal.pystr "t9")] "task_time_returned" = Option.none ∧
    (classifyLoop [(MessageType.WORKFLOW_INFO, wfStartMsg)]).error = Option.none ∧
    (processCycle
      [(MessageType.WORKFLOW_INFO, wfStartMsg),
       (MessageType.TASK_INFO, [("task_id", PyVal.pystr "t9")]),
       (MessageType.TASK_INFO, taskMsgRet)] []).error = some "task_time_returned" ∧
    (processCycle
      [(MessageType.WORKFLOW_INFO, wfStartMsg),
       (MessageType.TASK_INFO, [("task_id", PyVal.pystr "t9")]),
       (MessageType.TASK_INFO, taskMsgRet)] []).calls =
      (classifyLoop [(MessageType.WORKFLOW_INFO, wfStartMsg)]).calls :=
  ⟨by decide, by decide, by decide,
   (C9_whole_batch_failure [(MessageType.WORKFLOW_INFO, wfStartMsg)]
     [(MessageType.TASK_INFO, taskMsgRet)] MessageType.TASK_INFO
     [("task_id", PyVal.pystr "t9")] [] (by decide) (by decide) (by decide)).1,
   (C9_whole_batch_failure [(MessageType.WORKFLOW_INFO, wfStartMsg)]
     [(MessageType.TASK_INFO, taskMsgRet)] MessageType.TASK_INFO
     [("task_id", PyVal.pystr "t9")] [] (by decide) (by decide) (by decide)).2.1⟩

/-- Claim C8 counterexample: when the message component of a resource
channel item is a tagged tuple, the forwarder enqueues the LAST element
of the message, not the message component itself: the spec sentence
that exactly the message component is appended fails. -/
theorem C8_resource_forwarding_counterexample :
    migrateOne "resource" (PyObj.tup [resSample, PyObj.objstr "raddr"]) =
      Except.ok (ForwardEffect.enqueueResource (PyObj.objstr "sample")) ∧
    migrateOne "resource" (PyObj.tup [resSample, PyObj.objstr "raddr"]) ≠
      Except.ok (ForwardEffect.enqueueResource resSample) := by
  constructor
  · rfl
  · intro h
    have h0 : Except.ok (ForwardEffect.enqueueResource (PyObj.objstr "sample")) =
        (Except.ok (ForwardEffect.enqueueResource resSample) :
          Except String ForwardEffect) := h
    injection h0 with h1
    injection h1 with h2
    simp [resSample] at h2

/-- Claim C8 amended: for each item (message, source_address) received
on the resource channel, the last element of the message component,
the expression message[-1], is appended to the resource pending buffer;
the source address is dropped and influences nothing. -/
theorem C8_resource_forwarding_amended (x addr v : PyObj)
    (h : pyLastElem x = some v) :
    migrateOne "resource" (PyObj.tup [x, addr]) =
      Except.ok (ForwardEffect.enqueueResource v) ∧
    ∀ addr2, migrateOne "resource" (PyObj.tup [x, addr2]) =
      migrateOne "resource" (PyObj.tup [x, addr]) := by
  constructor
  · simp [migrateOne, unpack2, h]
  · intro addr2
    simp [migrateOne, unpack2]

/-- Claim C8 amended witness: the enqueued object at a concrete item. -/
theorem C8_resource_forwarding_amended_witness :
    pyLastElem resSample = some (PyObj.objstr "sample") ∧
    migrateOne "resource" (PyObj.tup [resSample, PyObj.objstr "raddr"]) =
      Except.ok (ForwardEffect.enqueueResource (PyObj.objstr "sample")) :=
  ⟨rfl,
   (C8_resource_forwarding_amended resSample (PyObj.objstr "raddr")
     (PyObj.objstr "sample") rfl).1⟩

/-- Claim C10: a forwarder unpacks every received item into exactly two
components; the STOP comparison and the priority enqueue apply to the
first component only and the second is discarded; an item that is not a
two-element sequence, such as the bare string STOP, fails the
unpacking. -/
theorem C10_two_component_unpacking (x a b : PyObj) (tag : String) :
    unpack2 (PyObj.tup [x, a]) = some (x, a) ∧
    migrateOne tag (PyObj.tup [x, a]) = migrateOne tag (PyObj.tup [x, b]) ∧
    migrateOne "priority" (PyObj.tup [x, a]) =
      (if x = PyObj.objstr "STOP" then Except.ok ForwardEffect.stopSignal
       else Except.ok (ForwardEffect.enqueuePriority x)) ∧
    (∀ item : PyObj, unpack2 item = Option.none →
      migrateOne tag item = Except.error "unpack") ∧
    (∀ l : List PyObj, l.length ≠ 2 → unpack2 (PyObj.tup l) = Option.none) ∧
    (∀ s : String, s.length ≠ 2 → unpack2 (PyObj.objstr s) = Option.none) ∧
    unpack2 PyObj.objnone = Option.none ∧
    migrateOne "priority" (PyObj.objstr "STOP") = Except.error "unpack" := by
  refine ⟨rfl, ?_, ?_, ?_, ?_, ?_, rfl, ?_⟩
  · simp [migrateOne, unpack2]
  · simp [migrateOne, unpack2]
  · intro item hitem
    rw [migrateOne]
    rw [hitem]
  · intro l hl
    rcases l with _ | ⟨x1, _ | ⟨x2, _ | ⟨x3, rest⟩⟩⟩
    · rfl
    · rfl
    · simp at hl
    · rfl
  · intro s hs
    simp [unpack2, hs]
  · rfl

/-- Claim C10 witness: a three-element tuple fails the two-name
unpacking and kills the handling of the item. -/
theorem C10_two_component_unpacking_witness :
    ([PyObj.objnone, PyObj.objnone, PyObj.objnone] : List PyObj).length ≠ 2 ∧
    unpack2 (PyObj.tup [PyObj.objnone, PyObj.objnone, PyObj.objnone]) = Option.none ∧
    migrateOne "resource" (PyObj.tup [PyObj.objnone, PyObj.objnone, PyObj.objnone]) =
      Except.error "unpack" :=
  ⟨by decide,
   (C10_two_component_unpacking PyObj.objnone PyObj.objnone PyObj.objnone
     "resource").2.2.2.2.1 [PyObj.objnone, PyObj.objnone, PyObj.objnone] (by decide),
   (C10_two_component_unpacking PyObj.objnone PyObj.objnone PyObj.objnone
     "resource").2.2.2.1 (PyObj.tup [PyObj.objnone, PyObj.objnone, PyObj.objnone]) rfl⟩

/-- Helper: once the coordinator has terminated, no step revives it and
no step changes what was routed. -/
theorem stopped_no_routing (s s2 : SysState) (h : Step s s2)
    (hs : s.stopped = true) :
    s2.stopped = true ∧ s2.routedP = s.routedP ∧ s2.routedR = s.routedR := by
  cases h <;> simp_all

/-- Helper: the previous fact extended to any number of steps. -/
theorem steps_stopped_no_routing (s s2 : SysState) (h : Steps s s2)
    (hs : s.stopped = true) :
    s2.stopped = true ∧ s2.routedP = s.routedP ∧ s2.routedR = s.routedR := by
  induction h with
  | refl => exact ⟨hs, rfl, rfl⟩
  | tail h1 h2 ih =>
      obtain ⟨ha, hb, hc⟩ := ih
      obtain ⟨ha2, hb2, hc2⟩ := stopped_no_routing _ _ h2 ha
      exact ⟨ha2, by rw [hb2, hb], by rw [hc2, hc]⟩

/-- Claim C1: drain completeness fails on the code. There is an
interleaving of the three threads in which a resource message enqueued
on its ingress channel before the STOP sentinel is processed is never
routed to any persistence call although the coordinator loop
terminates: the resource forwarder removes the item from its channel
and is preempted while still holding it, the priority forwarder
processes STOP and sets the kill event, and the coordinator then
observes the kill event set and all four queues empty and stops; no
continuation of this execution ever routes the held message. -/
theorem C1_drain_completeness_race :
    Steps raceInit raceFinal ∧
    raceInit.resourceChan = [PyObj.tup [resSample, PyObj.objstr "raddr"]] ∧
    raceFinal.stopped = true ∧
    raceFinal.routedP = [] ∧
    raceFinal.routedR = [] ∧
    raceFinal.rf = FwState.holding resSample (PyObj.objstr "raddr") ∧
    ∀ s, Steps raceFinal s → s.stopped = true ∧ s.routedR = [] := by
  refine ⟨?_, rfl, rfl, rfl, rfl, rfl, ?_⟩
  · show Relation.ReflTransGen Step raceInit raceFinal
    refine Relation.ReflTransGen.head
      (Step.rfPop resChanItem [stopChanItem] [] resSample (PyObj.objstr "raddr")
        false [] [] FwState.atLoop false [] [] rfl) ?_
    refine Relation.ReflTransGen.head
      (Step.pfPop stopChanItem [] [] (PyObj.objstr "STOP") (PyObj.objstr "paddr")
        false [] [] (FwState.holding resSample (PyObj.objstr "raddr")) false [] [] rfl) ?_
    refine Relation.ReflTransGen.head
      (Step.pfStop [] [] (PyObj.objstr "paddr") false [] []
        (FwState.holding resSample (PyObj.objstr "raddr")) false [] []) ?_
    refine Relation.ReflTransGen.head
      (Step.coordStop
        ⟨[], [], true, [], [], FwState.atLoop,
         FwState.holding resSample (PyObj.objstr "raddr"), false, [], []⟩ rfl rfl) ?_
    exact Relation.ReflTransGen.refl
  · intro s hs
    have h := steps_stopped_no_routing raceFinal s hs rfl
    refine ⟨h.1, ?_⟩
    rw [h.2.2]
    rfl
